import Mathlib

/-!
Verification development for the RIZBOT-VIBRASI dashboard.

The development shallowly embeds the two stateful components of the
repository:

* `components/LiveMaintenance.tsx` — the realtime audio session: the
  gapless playback scheduler inside the `onmessage` callback, the
  `onopen` capture wiring, the `onclose`/`onerror` callbacks, and
  `stopSession`.  Mutable refs and React state become fields of
  `LMState`; the callbacks become state transformers; browser time is a
  rational parameter.

* `components/VibrationAnalyzer.tsx` — the image-analysis screen:
  `runAnalysis`, `handleFeedback`, the auto-switch `useEffect`, and the
  compare-tab guard.  React state and the local-storage feedback log
  become fields of `VAState`; the remote call's outcome is an `Except`
  parameter.

Ghost fields (`everOpened`, `sentFrames`, `alerted`, `remoteCalls`,
`lastStart`, `alerts`) record observable history that the claims talk
about; no source behaviour depends on them.
-/

namespace RizbotVibrasi

/-! ## LiveMaintenance: state

Refs of `LiveMaintenance.tsx` as record fields.  An audio context is
`Option Bool` (`some closed`), an audio graph node is `Option Bool`
(`some connected`), the media stream is the list of its tracks' active
flags, the session handle is `Option Bool` (`some closeRequested`), and
`animationFrame` holds the pending visualization frame, if any. -/

structure LMState where
  connected : Bool
  isTalking : Bool
  inputContext : Option Bool
  outputContext : Option Bool
  stream : Option (List Bool)
  processor : Option Bool
  source : Option Bool
  analyser : Option Bool
  nextStartTime : ℚ
  session : Option Bool
  animationFrame : Option Nat
  lastStart : Option ℚ
  alerted : Bool
  everOpened : Bool
  sentFrames : Nat
deriving DecidableEq, Repr

/-- The component's initial state: every ref null, both flags false,
`nextStartTimeRef` at `0`. -/
def initialLM : LMState :=
  { connected := false
    isTalking := false
    inputContext := none
    outputContext := none
    stream := none
    processor := none
    source := none
    analyser := none
    nextStartTime := 0
    session := none
    animationFrame := none
    lastStart := none
    alerted := false
    everOpened := false
    sentFrames := 0 }

/-! ## LiveMaintenance: operations -/

/-- `startSession` up to the point where control returns to the caller:
both audio contexts are created (open), then `getUserMedia` either
yields a stream with `n` live tracks and `client.connect` creates the
session handle, or throws, in which case the `catch` block shows the
microphone alert.  (`onopen` fires later, as a separate event.) -/
def startSession (micGranted : Bool) (n : Nat) (s : LMState) : LMState :=
  let s1 := { s with inputContext := some false, outputContext := some false }
  if micGranted then
    { s1 with stream := some (List.replicate n true), session := some false }
  else
    { s1 with alerted := true }

/-- The `onopen` callback: set `connected`, then (guarded by
`inputContextRef.current`) wire source → analyser → processor →
destination and start the visualizer loop.  The ghost flag `everOpened`
records that `onopen` has fired. -/
def onopen (s : LMState) : LMState :=
  let s1 := { s with connected := true, everOpened := true }
  match s1.inputContext with
  | none => s1
  | some _ =>
    { s1 with
      analyser := some true
      processor := some true
      source := some true
      animationFrame := some 0 }

/-- One `onaudioprocess` tick of the script processor: while the
processor node is connected it encodes the frame and sends it to the
session (ghost-counted in `sentFrames`); a disconnected or absent
processor produces no tick. -/
def captureFrame (s : LMState) : LMState :=
  match s.processor with
  | some true => { s with sentFrames := s.sentFrames + 1 }
  | _ => s

/-- Lines 134–141 of `LiveMaintenance.tsx`: the chunk is scheduled at
`max(nextStartTime, ctx.currentTime)` and the cursor advances by the
chunk's duration.  Returns `(start, new cursor)`. -/
def scheduleChunk (cursor now dur : ℚ) : ℚ × ℚ :=
  (max cursor now, max cursor now + dur)

/-- The audio-bearing branch of `onmessage`: guarded by
`outputContextRef.current`, it sets `isTalking`, schedules the decoded
buffer via `scheduleChunk` and advances the cursor.  `lastStart` ghosts
the start time passed to `source.start`. -/
def onmessageChunk (now dur : ℚ) (s : LMState) : LMState :=
  match s.outputContext with
  | none => s
  | some _ =>
    let p := scheduleChunk s.nextStartTime now dur
    { s with isTalking := true, lastStart := some p.1, nextStartTime := p.2 }

/-- The `serverContent.interrupted` branch of `onmessage`: clear
`isTalking` and reset the cursor to `0`. -/
def onmessageInterrupted (s : LMState) : LMState :=
  { s with isTalking := false, nextStartTime := 0 }

/-- The `onclose` callback: `setConnected(false)` and cancel the pending
visualization frame if there is one.  Nothing else is touched. -/
def onclose (s : LMState) : LMState :=
  let s1 := { s with connected := false }
  if s1.animationFrame.isSome then { s1 with animationFrame := none } else s1

/-- The `onerror` callback: identical observable effect to `onclose`
(`setConnected(false)` plus cancelling the pending frame). -/
def onerror (s : LMState) : LMState :=
  let s1 := { s with connected := false }
  if s1.animationFrame.isSome then { s1 with animationFrame := none } else s1

/-- `stopSession`: each guarded cleanup becomes an `Option.map` — stop
every track of the stream, disconnect processor/source/analyser, close
both contexts, cancel the pending frame, request close of the session
handle — then clear both flags. -/
def stopSession (s : LMState) : LMState :=
  { s with
    stream := s.stream.map (fun ts => ts.map fun _ => false)
    processor := s.processor.map fun _ => false
    source := s.source.map fun _ => false
    analyser := s.analyser.map fun _ => false
    inputContext := s.inputContext.map fun _ => true
    outputContext := s.outputContext.map fun _ => true
    animationFrame := none
    session := s.session.map fun _ => true
    connected := false
    isTalking := false }

/-! ## LiveMaintenance: event traces

The callbacks attached in `client.connect` can only fire once the
session handle exists, so the session-driven events are guarded on
`session.isSome`. -/

inductive LMEvent where
  | start (micGranted : Bool) (n : Nat)
  | opened
  | chunk (now dur : ℚ)
  | interruptedEv
  | closeEv
  | errorEv
  | stop
  | frame
deriving DecidableEq, Repr

def LMEvent.isStart : LMEvent → Bool
  | .start _ _ => true
  | _ => false

def step (e : LMEvent) (s : LMState) : LMState :=
  match e with
  | .start g n => startSession g n s
  | .opened => if s.session.isSome then onopen s else s
  | .chunk now dur => if s.session.isSome then onmessageChunk now dur s else s
  | .interruptedEv => if s.session.isSome then onmessageInterrupted s else s
  | .closeEv => if s.session.isSome then onclose s else s
  | .errorEv => if s.session.isSome then onerror s else s
  | .stop => stopSession s
  | .frame => captureFrame s

def runFrom (s : LMState) (t : List LMEvent) : LMState :=
  t.foldl (fun a e => step e a) s

def run (t : List LMEvent) : LMState :=
  runFrom initialLM t

/-! ## Playback scheduling over chunk lists

Iterating `scheduleChunk` over a list of `(arrival time, duration)`
pairs: `schedAll` returns each chunk's `(start, duration)` and
`finalCursor` the cursor after the last chunk. -/

def schedAll (cursor : ℚ) : List (ℚ × ℚ) → List (ℚ × ℚ)
  | [] => []
  | (now, dur) :: rest =>
    (max cursor now, dur) :: schedAll (max cursor now + dur) rest

def finalCursor (cursor : ℚ) : List (ℚ × ℚ) → ℚ
  | [] => cursor
  | (now, dur) :: rest => finalCursor (scheduleChunk cursor now dur).2 rest

/-- A concrete state in which the session is open: reached from the
initial state by a successful start (one media track) followed by
`onopen`. -/
def exampleOpenState : LMState :=
  step LMEvent.opened (step (LMEvent.start true 1) initialLM)

/-! ## VibrationAnalyzer: data model (`types.ts` and component state) -/

inductive Severity where
  | normal
  | prewarning
  | warning
  | alarm
deriving DecidableEq, Repr

structure AnalysisResult where
  faults : List String
  severity : Severity
  recommendations : List String
  rawAnalysis : String
deriving DecidableEq, Repr

inductive View where
  | waveform
  | spectrum
  | compare
deriving DecidableEq, Repr

inductive Feedback where
  | up
  | down
deriving DecidableEq, Repr

/-- One record of the local-storage feedback log: `handleFeedback`
stores `result?.severity`, so the severity is optional. -/
structure FeedbackRecord where
  timestamp : String
  severity : Option Severity
  helpful : Bool
deriving DecidableEq, Repr

/-- Observable state of `VibrationAnalyzer.tsx`: the React state the
claims mention, the alerts shown so far, the local-storage list under
the fixed key `gemini_feedback_history`, and a ghost count of remote
analysis calls attempted. -/
structure VAState where
  analyzing : Bool
  result : Option AnalysisResult
  waveformImage : Option String
  spectrumImage : Option String
  historicalImage : Option String
  activeView : View
  feedbackGiven : Option Feedback
  alerts : List String
  feedbackHistory : List FeedbackRecord
  remoteCalls : Nat
deriving DecidableEq, Repr

def initialVA : VAState :=
  { analyzing := false
    result := none
    waveformImage := none
    spectrumImage := none
    historicalImage := none
    activeView := View.spectrum
    feedbackGiven := none
    alerts := []
    feedbackHistory := []
    remoteCalls := 0 }

/-! ## VibrationAnalyzer: operations -/

/-- `runAnalysis`, run to completion with the remote call's outcome as a
parameter.  With no image at all it alerts and returns before touching
any state.  Otherwise it sets `analyzing`, clears `feedbackGiven`,
attempts the remote call (ghost-counted), then either stores the result
or alerts on failure, and the `finally` block clears `analyzing`. -/
def runAnalysis (outcome : Except Unit AnalysisResult) (s : VAState) : VAState :=
  if s.waveformImage.isNone && s.spectrumImage.isNone then
    { s with alerts :=
        s.alerts ++ ["Please upload at least one image (Waveform or Spectrum)."] }
  else
    match outcome with
    | .ok analysis =>
      { s with
        feedbackGiven := none
        remoteCalls := s.remoteCalls + 1
        result := some analysis
        analyzing := false }
    | .error _ =>
      { s with
        feedbackGiven := none
        remoteCalls := s.remoteCalls + 1
        alerts := s.alerts ++ ["Analysis failed."]
        analyzing := false }

/-- `handleFeedback`: record which button was pressed, then
read-modify-write the local-storage log, pushing one
`{timestamp, severity, helpful}` record. -/
def handleFeedback (ts : String) (isHelpful : Bool) (s : VAState) : VAState :=
  { s with
    feedbackGiven := some (if isHelpful then Feedback.up else Feedback.down)
    feedbackHistory := s.feedbackHistory ++
      [{ timestamp := ts
         severity := s.result.map AnalysisResult.severity
         helpful := isHelpful }] }

/-- The auto-switch `useEffect` (lines 95–99): pick `compare` when both
historical and current spectrum images are present, else `spectrum`
when the spectrum image is present, else `waveform` when the waveform
image is present, else leave the view alone. -/
def autoSwitchView (s : VAState) : VAState :=
  if s.historicalImage.isSome && s.spectrumImage.isSome then
    { s with activeView := View.compare }
  else if s.spectrumImage.isSome then
    { s with activeView := View.spectrum }
  else if s.waveformImage.isSome then
    { s with activeView := View.waveform }
  else s

/-- The `disabled` attribute of the compare tab button (line 540):
`!historicalImage || !spectrumImage`. -/
def compareDisabled (s : VAState) : Bool :=
  !s.historicalImage.isSome || !s.spectrumImage.isSome

/-- A user click on the compare tab: a disabled button does nothing,
otherwise `setActiveView('compare')`. -/
def selectCompare (s : VAState) : VAState :=
  if compareDisabled s then s else { s with activeView := View.compare }

/-- The fixed priority rule in the words of the claim, independent of
the component: the view selected after an image upload, over presence
flags, to be compared with `autoSwitchView`. -/
def viewPriorityRuleSpec (wf sp hist : Bool) (cur : View) : View :=
  if hist && sp then View.compare
  else if sp then View.spectrum
  else if wf then View.waveform
  else cur

/-! ## Predicates used by the lifecycle theorems -/

/-- The full teardown described for `stopSession`: every track of the
stream stopped, processor/source/analyser disconnected, both contexts
closed, no pending visualization frame, close requested on the session
handle. -/
def teardownComplete (pre post : LMState) : Prop :=
  post.stream = pre.stream.map (fun ts => ts.map fun _ => false) ∧
  post.processor = pre.processor.map (fun _ => false) ∧
  post.source = pre.source.map (fun _ => false) ∧
  post.analyser = pre.analyser.map (fun _ => false) ∧
  post.inputContext = pre.inputContext.map (fun _ => true) ∧
  post.outputContext = pre.outputContext.map (fun _ => true) ∧
  post.animationFrame = none ∧
  post.session = pre.session.map (fun _ => true)

/-- No capture activity yet: no frame ever sent and none of the capture
graph nodes connected. -/
def capturePristine (s : LMState) : Prop :=
  s.sentFrames = 0 ∧ s.processor ≠ some true ∧
  s.source ≠ some true ∧ s.analyser ≠ some true

/-- After a failed start: no session handle exists, the component never
connected, `onopen` never fired, and no processor node exists. -/
def noSessionIdle (s : LMState) : Prop :=
  s.session = none ∧ s.connected = false ∧
  s.everOpened = false ∧ s.processor = none

/-- A concrete analyzer state for the error-path theorems: a spectrum
image is loaded, a previous analysis result exists and the user already
gave a thumbs-up. -/
def c7result : AnalysisResult :=
  { faults := ["Unbalance at 1x RPM"]
    severity := Severity.warning
    recommendations := ["Balance the rotor"]
    rawAnalysis := "### Diagnosis" }

def c7state : VAState :=
  { initialVA with
    spectrumImage := some "c3BlYw"
    result := some c7result
    feedbackGiven := some Feedback.up }

/-! ## Scheduler lemmas -/

theorem schedAll_cons (c now dur : ℚ) (rest : List (ℚ × ℚ)) :
    schedAll c ((now, dur) :: rest) =
      (max c now, dur) :: schedAll (max c now + dur) rest := rfl

/-- Every start produced by `schedAll` is at or after the incoming
cursor, and consecutive chunks never overlap: each start is at least
the previous start plus the previous duration. -/
theorem schedAll_chain_aux (l : List (ℚ × ℚ)) :
    ∀ c : ℚ, (∀ p ∈ l, 0 ≤ p.2) →
      List.Chain' (fun p q : ℚ × ℚ => p.1 + p.2 ≤ q.1) (schedAll c l) ∧
      ∀ x ∈ (schedAll c l).head?, c ≤ x.1 := by
  induction l with
  | nil => intro c _; exact ⟨List.chain'_nil, by simp [schedAll]⟩
  | cons p rest ih =>
    rintro c hd
    obtain ⟨now, dur⟩ := p
    have hdur : (0:ℚ) ≤ dur := hd (now, dur) (List.mem_cons_self _ _)
    have hrest := ih (max c now + dur) (fun q hq => hd q (List.mem_cons_of_mem _ hq))
    rw [schedAll_cons]
    refine ⟨List.chain'_cons'.mpr ⟨?_, hrest.1⟩, ?_⟩
    · intro b hb
      exact hrest.2 b hb
    · intro x hx
      simp only [List.head?_cons, Option.mem_def, Option.some_inj] at hx
      subst hx
      exact le_max_left _ _

/-- Starts are non-decreasing along the schedule. -/
theorem schedAll_starts_aux (l : List (ℚ × ℚ)) :
    ∀ c : ℚ, (∀ p ∈ l, 0 ≤ p.2) →
      List.Chain' (fun p q : ℚ × ℚ => p.1 ≤ q.1) (schedAll c l) := by
  induction l with
  | nil => intro c _; exact List.chain'_nil
  | cons p rest ih =>
    rintro c hd
    obtain ⟨now, dur⟩ := p
    have hdur : (0:ℚ) ≤ dur := hd (now, dur) (List.mem_cons_self _ _)
    have hrest := ih (max c now + dur) (fun q hq => hd q (List.mem_cons_of_mem _ hq))
    have hhead := (schedAll_chain_aux rest (max c now + dur)
      (fun q hq => hd q (List.mem_cons_of_mem _ hq))).2
    rw [schedAll_cons]
    refine List.chain'_cons'.mpr ⟨?_, hrest⟩
    intro b hb
    have h1 : max c now + dur ≤ b.1 := hhead b hb
    have h2 : max c now ≤ max c now + dur := by linarith
    exact h2.trans h1

/-- C1: for every sequence of decoded chunks with non-negative
durations and arbitrary arrival times, the `onmessage` scheduler starts
each chunk at `max(cursor, now)` and advances the cursor by the chunk's
duration, so starts are non-decreasing and each start is at least the
previous start plus the previous duration (no overlap); concretely, two
chunks of 0.5 s and 0.3 s arriving back-to-back at output-clock time
`T` are scheduled at `T` and `T + 0.5` and the cursor ends at
`T + 0.8`. -/
theorem c1_gapless_scheduling (c T : ℚ) (l : List (ℚ × ℚ))
    (hdur : ∀ p ∈ l, 0 ≤ p.2) (hT : 0 ≤ T) :
    List.Chain' (fun p q : ℚ × ℚ => p.1 + p.2 ≤ q.1) (schedAll c l) ∧
    List.Chain' (· ≤ ·) ((schedAll c l).map Prod.fst) ∧
    (schedAll 0 [(T, 1/2), (T, 3/10)]).map Prod.fst = [T, T + 1/2] ∧
    finalCursor 0 [(T, 1/2), (T, 3/10)] = T + 4/5 := by
  have hmax1 : max (0:ℚ) T = T := max_eq_right hT
  have hmax2 : max (T + 1/2) T = T + 1/2 := max_eq_left (by linarith)
  refine ⟨(schedAll_chain_aux l c hdur).1, ?_, ?_, ?_⟩
  · rw [List.chain'_map]
    exact schedAll_starts_aux l c hdur
  · simp [schedAll, hmax1, hmax2]
  · simp [finalCursor, scheduleChunk, hmax1, hmax2]
    ring

/-- C1 witness: the theorem instantiated at cursor `2`, `T = 1` and the
chunk list `[(0, 1), (3, 1/2)]`. -/
theorem c1_gapless_scheduling_witness :
    List.Chain' (fun p q : ℚ × ℚ => p.1 + p.2 ≤ q.1)
      (schedAll 2 [(0, 1), (3, 1/2)]) ∧
    List.Chain' (· ≤ ·) ((schedAll 2 [(0, 1), (3, 1/2)]).map Prod.fst) ∧
    (schedAll 0 [(1, 1/2), (1, 3/10)]).map Prod.fst = [1, 1 + 1/2] ∧
    finalCursor 0 [(1, 1/2), (1, 3/10)] = 1 + 4/5 :=
  c1_gapless_scheduling 2 1 [(0, 1), (3, 1/2)]
    (by intro p hp; fin_cases hp <;> norm_num) (by norm_num)

/-! ## Lifecycle lemmas -/

theorem onclose_eq (s : LMState) :
    onclose s = { s with connected := false, animationFrame := none } := by
  cases s with
  | mk c it ic oc st pr so an nst se af ls al eo sf =>
    cases af <;> rfl

theorem onerror_eq (s : LMState) :
    onerror s = { s with connected := false, animationFrame := none } := by
  cases s with
  | mk c it ic oc st pr so an nst se af ls al eo sf =>
    cases af <;> rfl

/-- C2 counterexample: in the open state reached by a successful start
and `onopen`, the `onclose` callback leaves the media track active, both
contexts open, the processor connected and the session handle without a
close request — it does not perform the full teardown, and differs from
`stopSession` on the same state. -/
theorem c2_counterexample :
    (onclose exampleOpenState).stream = some [true] ∧
    (onclose exampleOpenState).inputContext = some false ∧
    (onclose exampleOpenState).outputContext = some false ∧
    (onclose exampleOpenState).processor = some true ∧
    (onclose exampleOpenState).session = some false ∧
    onclose exampleOpenState ≠ stopSession exampleOpenState := by decide

/-- C2 (amended): only the explicit `stopSession` path performs the full
teardown (tracks stopped, nodes disconnected, contexts closed, frame
cancelled, session close requested); the remote `onclose` and `onerror`
callbacks only clear the connected flag and cancel any pending
visualization frame, leaving everything else untouched. -/
theorem c2_exit_paths (s : LMState) :
    teardownComplete s (stopSession s) ∧
    (stopSession s).connected = false ∧
    (stopSession s).isTalking = false ∧
    onclose s = { s with connected := false, animationFrame := none } ∧
    onerror s = { s with connected := false, animationFrame := none } :=
  ⟨⟨rfl, rfl, rfl, rfl, rfl, rfl, rfl, rfl⟩, rfl, rfl, onclose_eq s, onerror_eq s⟩

/-- C3: `stopSession` is idempotent — running it twice yields the same
state as running it once; on the initial (idle) state it is a no-op;
and after it the component is disconnected with no pending frame and
every media track stopped. -/
theorem c3_stop_idempotent (s : LMState) :
    stopSession (stopSession s) = stopSession s ∧
    stopSession initialLM = initialLM ∧
    (stopSession s).connected = false ∧
    (stopSession s).animationFrame = none ∧
    (stopSession s).stream = s.stream.map (fun ts => ts.map fun _ => false) := by
  refine ⟨?_, by decide, rfl, rfl, rfl⟩
  cases s with
  | mk c it ic oc st pr so an nst se af ls al eo sf =>
    cases st <;>
      simp [stopSession, Option.map_map, Function.comp, List.length_replicate]

/-- C4: an "interrupted" server event immediately clears the speaking
flag and resets the schedule cursor to zero, so the next chunk is
scheduled at the current output-clock time `now` (not at the previous
chunk's end time) and the cursor continues from `now + dur`. -/
theorem c4_interrupted_resets (s : LMState) (now dur : ℚ)
    (hctx : s.outputContext.isSome = true) (hnow : 0 ≤ now) :
    (onmessageInterrupted s).isTalking = false ∧
    (onmessageInterrupted s).nextStartTime = 0 ∧
    (onmessageChunk now dur (onmessageInterrupted s)).lastStart = some now ∧
    (onmessageChunk now dur (onmessageInterrupted s)).nextStartTime = now + dur := by
  have hmax : max (0:ℚ) now = now := max_eq_right hnow
  cases h : s.outputContext with
  | none => rw [h] at hctx; cases hctx
  | some b =>
    refine ⟨rfl, rfl, ?_, ?_⟩ <;>
      simp [onmessageChunk, onmessageInterrupted, scheduleChunk, h, hmax]

/-- C4 witness: the theorem at the open example state with a chunk
arriving at output-clock time 2 with duration 1. -/
theorem c4_interrupted_resets_witness :
    (onmessageInterrupted exampleOpenState).isTalking = false ∧
    (onmessageInterrupted exampleOpenState).nextStartTime = 0 ∧
    (onmessageChunk 2 1 (onmessageInterrupted exampleOpenState)).lastStart = some 2 ∧
    (onmessageChunk 2 1 (onmessageInterrupted exampleOpenState)).nextStartTime = 2 + 1 :=
  c4_interrupted_resets exampleOpenState 2 1 (by decide) (by norm_num)

theorem step_capturePristine (e : LMEvent) (s : LMState)
    (h : s.everOpened = false → capturePristine s) :
    (step e s).everOpened = false → capturePristine (step e s) := by
  cases e with
  | start g n =>
    intro hop
    have hev : (step (LMEvent.start g n) s).everOpened = s.everOpened := by
      cases g <;> rfl
    obtain ⟨h1, h2, h3, h4⟩ := h (by rw [← hev]; exact hop)
    cases g with
    | true => exact ⟨h1, h2, h3, h4⟩
    | false => exact ⟨h1, h2, h3, h4⟩
  | opened =>
    intro hop
    cases hse : s.session.isSome with
    | false =>
      have hstep : step LMEvent.opened s = s := by simp [step, hse]
      rw [hstep] at hop ⊢
      exact h hop
    | true =>
      exfalso
      have hev : (step LMEvent.opened s).everOpened = true := by
        simp only [step, hse, if_true]
        cases hic : s.inputContext <;> simp [onopen, hic]
      rw [hev] at hop
      cases hop
  | chunk now dur =>
    intro hop
    cases hse : s.session.isSome with
    | false =>
      have hstep : step (LMEvent.chunk now dur) s = s := by simp [step, hse]
      rw [hstep] at hop ⊢
      exact h hop
    | true =>
      have hstep : step (LMEvent.chunk now dur) s = onmessageChunk now dur s := by
        simp [step, hse]
      rw [hstep] at hop ⊢
      cases hoc : s.outputContext with
      | none =>
        have hmc : onmessageChunk now dur s = s := by simp [onmessageChunk, hoc]
        rw [hmc] at hop ⊢
        exact h hop
      | some b =>
        have hmc : onmessageChunk now dur s =
            { s with isTalking := true
                     lastStart := some (scheduleChunk s.nextStartTime now dur).1
                     nextStartTime := (scheduleChunk s.nextStartTime now dur).2 } := by
          simp [onmessageChunk, hoc]
        rw [hmc] at hop ⊢
        exact h hop
  | interruptedEv =>
    intro hop
    cases hse : s.session.isSome with
    | false =>
      have hstep : step LMEvent.interruptedEv s = s := by simp [step, hse]
      rw [hstep] at hop ⊢
      exact h hop
    | true =>
      have hstep : step LMEvent.interruptedEv s = onmessageInterrupted s := by
        simp [step, hse]
      rw [hstep] at hop ⊢
      exact h hop
  | closeEv =>
    intro hop
    cases hse : s.session.isSome with
    | false =>
      have hstep : step LMEvent.closeEv s = s := by simp [step, hse]
      rw [hstep] at hop ⊢
      exact h hop
    | true =>
      have hstep : step LMEvent.closeEv s = onclose s := by simp [step, hse]
      rw [hstep, onclose_eq] at hop ⊢
      exact h hop
  | errorEv =>
    intro hop
    cases hse : s.session.isSome with
    | false =>
      have hstep : step LMEvent.errorEv s = s := by simp [step, hse]
      rw [hstep] at hop ⊢
      exact h hop
    | true =>
      have hstep : step LMEvent.errorEv s = onerror s := by simp [step, hse]
      rw [hstep, onerror_eq] at hop ⊢
      exact h hop
  | stop =>
    intro hop
    obtain ⟨h1, h2, h3, h4⟩ := h hop
    refine ⟨h1, ?_, ?_, ?_⟩
    · show s.processor.map (fun _ => false) ≠ some true
      cases s.processor <;> simp
    · show s.source.map (fun _ => false) ≠ some true
      cases s.source <;> simp
    · show s.analyser.map (fun _ => false) ≠ some true
      cases s.analyser <;> simp
  | frame =>
    intro hop
    cases hsp : s.processor with
    | none =>
      have hstep : step LMEvent.frame s = s := by simp [step, captureFrame, hsp]
      rw [hstep] at hop ⊢
      exact h hop
    | some b =>
      cases b with
      | false =>
        have hstep : step LMEvent.frame s = s := by simp [step, captureFrame, hsp]
        rw [hstep] at hop ⊢
        exact h hop
      | true =>
        have hev : (step LMEvent.frame s).everOpened = s.everOpened := by
          simp [step, captureFrame, hsp]
        obtain ⟨h1, h2, h3, h4⟩ := h (by rw [← hev]; exact hop)
        exact absurd hsp h2

theorem runFrom_capturePristine (t : List LMEvent) :
    ∀ s : LMState, (s.everOpened = false → capturePristine s) →
      (runFrom s t).everOpened = false → capturePristine (runFrom s t) := by
  induction t with
  | nil => intro s h; exact h
  | cons e t ih =>
    intro s h
    exact ih (step e s) (step_capturePristine e s h)

/-- C5: in every execution trace, capture never precedes the open
handshake — if any capture frame has been sent, or any capture node
(processor, source, analyser) is connected, then the `onopen` callback
has already fired. -/
theorem c5_no_capture_before_open (t : List LMEvent)
    (h : (run t).sentFrames ≠ 0 ∨ (run t).processor = some true ∨
      (run t).source = some true ∨ (run t).analyser = some true) :
    (run t).everOpened = true := by
  cases hev : (run t).everOpened with
  | true => rfl
  | false =>
    exfalso
    have hinit : initialLM.everOpened = false → capturePristine initialLM := by
      intro _
      exact ⟨rfl, by simp [initialLM, capturePristine], by simp [initialLM],
        by simp [initialLM]⟩
    have hp := runFrom_capturePristine t initialLM hinit hev
    rcases h with h | h | h | h
    · exact h hp.1
    · exact hp.2.1 h
    · exact hp.2.2.1 h
    · exact hp.2.2.2 h

/-- C5 witness: the trace start → onopen → one capture tick sends a
frame, and `onopen` has indeed fired. -/
theorem c5_no_capture_before_open_witness :
    ((run [LMEvent.start true 1, LMEvent.opened, LMEvent.frame]).sentFrames ≠ 0 ∨
      (run [LMEvent.start true 1, LMEvent.opened, LMEvent.frame]).processor = some true ∨
      (run [LMEvent.start true 1, LMEvent.opened, LMEvent.frame]).source = some true ∨
      (run [LMEvent.start true 1, LMEvent.opened, LMEvent.frame]).analyser = some true) ∧
    (run [LMEvent.start true 1, LMEvent.opened, LMEvent.frame]).everOpened = true :=
  ⟨Or.inl (by decide),
    c5_no_capture_before_open [LMEvent.start true 1, LMEvent.opened, LMEvent.frame]
      (Or.inl (by decide))⟩

theorem step_noSessionIdle (e : LMEvent) (s : LMState)
    (he : e.isStart = false) (hJ : noSessionIdle s) : noSessionIdle (step e s) := by
  obtain ⟨h1, h2, h3, h4⟩ := hJ
  cases e with
  | start g n => simp [LMEvent.isStart] at he
  | opened =>
    have hstep : step LMEvent.opened s = s := by simp [step, h1]
    rw [hstep]
    exact ⟨h1, h2, h3, h4⟩
  | chunk now dur =>
    have hstep : step (LMEvent.chunk now dur) s = s := by simp [step, h1]
    rw [hstep]
    exact ⟨h1, h2, h3, h4⟩
  | interruptedEv =>
    have hstep : step LMEvent.interruptedEv s = s := by simp [step, h1]
    rw [hstep]
    exact ⟨h1, h2, h3, h4⟩
  | closeEv =>
    have hstep : step LMEvent.closeEv s = s := by simp [step, h1]
    rw [hstep]
    exact ⟨h1, h2, h3, h4⟩
  | errorEv =>
    have hstep : step LMEvent.errorEv s = s := by simp [step, h1]
    rw [hstep]
    exact ⟨h1, h2, h3, h4⟩
  | stop =>
    refine ⟨?_, rfl, h3, ?_⟩
    · show s.session.map (fun _ => true) = none
      rw [h1]; rfl
    · show s.processor.map (fun _ => false) = none
      rw [h4]; rfl
  | frame =>
    have hstep : step LMEvent.frame s = s := by simp [step, captureFrame, h4]
    rw [hstep]
    exact ⟨h1, h2, h3, h4⟩

theorem runFrom_noSessionIdle (t : List LMEvent) :
    ∀ s : LMState, (∀ e ∈ t, e.isStart = false) → noSessionIdle s →
      noSessionIdle (runFrom s t) := by
  induction t with
  | nil => intro s _ hJ; exact hJ
  | cons e t ih =>
    intro s ht hJ
    exact ih (step e s)
      (fun x hx => ht x (List.mem_cons_of_mem _ hx))
      (step_noSessionIdle e s (ht e (List.mem_cons_self _ _)) hJ)

/-- C6: when microphone permission is denied, `startSession` surfaces
the alert and aborts; afterwards, for any continuation of the execution
that contains no further start action (no automatic retry exists), the
connected flag stays false and `onopen` never fires — the session never
reaches the Open state. -/
theorem c6_mic_denied (n : Nat) (t : List LMEvent)
    (ht : ∀ e ∈ t, e.isStart = false) :
    (startSession false n initialLM).alerted = true ∧
    (startSession false n initialLM).connected = false ∧
    (runFrom (startSession false n initialLM) t).connected = false ∧
    (runFrom (startSession false n initialLM) t).everOpened = false := by
  have hJ : noSessionIdle (startSession false n initialLM) := ⟨rfl, rfl, rfl, rfl⟩
  have h := runFrom_noSessionIdle t _ ht hJ
  exact ⟨rfl, rfl, h.2.1, h.2.2.1⟩

/-- C6 witness: the theorem for a denied start followed by a remote
close and an explicit stop. -/
theorem c6_mic_denied_witness :
    (startSession false 1 initialLM).alerted = true ∧
    (startSession false 1 initialLM).connected = false ∧
    (runFrom (startSession false 1 initialLM) [LMEvent.closeEv, LMEvent.stop]).connected
      = false ∧
    (runFrom (startSession false 1 initialLM) [LMEvent.closeEv, LMEvent.stop]).everOpened
      = false :=
  c6_mic_denied 1 [LMEvent.closeEv, LMEvent.stop] (by decide)

/-! ## VibrationAnalyzer theorems -/

/-- C7 counterexample: with a previous thumbs-up recorded, a failing
analysis run clears the feedback state (it is reset to null before the
remote call and left null on error), so the state is not left unchanged
by the failure. -/
theorem c7_counterexample :
    c7state.feedbackGiven = some Feedback.up ∧
    (runAnalysis (Except.error ()) c7state).feedbackGiven = none := by decide

/-- C7 (amended): when the remote analysis call fails, the failure is
alerted, the previous analysis result, images, view, and stored
feedback log are preserved and `analyzing` returns to false so the user
may retry — but the recorded feedback state has been cleared to null
(it is reset at the start of the action, before the call), not
preserved. -/
theorem c7_error_preserves_result (s : VAState) (e : Unit)
    (h : (s.waveformImage.isNone && s.spectrumImage.isNone) = false) :
    (runAnalysis (Except.error e) s).result = s.result ∧
    (runAnalysis (Except.error e) s).alerts = s.alerts ++ ["Analysis failed."] ∧
    (runAnalysis (Except.error e) s).analyzing = false ∧
    (runAnalysis (Except.error e) s).feedbackGiven = none ∧
    (runAnalysis (Except.error e) s).waveformImage = s.waveformImage ∧
    (runAnalysis (Except.error e) s).spectrumImage = s.spectrumImage ∧
    (runAnalysis (Except.error e) s).historicalImage = s.historicalImage ∧
    (runAnalysis (Except.error e) s).activeView = s.activeView ∧
    (runAnalysis (Except.error e) s).feedbackHistory = s.feedbackHistory := by
  refine ⟨?_, ?_, ?_, ?_, ?_, ?_, ?_, ?_, ?_⟩ <;> simp [runAnalysis, h]

/-- C7 witness: the amended theorem at the concrete analyzer state with
a spectrum image loaded. -/
theorem c7_error_preserves_result_witness :
    (c7state.waveformImage.isNone && c7state.spectrumImage.isNone) = false ∧
    (runAnalysis (Except.error ()) c7state).result = c7state.result ∧
    (runAnalysis (Except.error ()) c7state).alerts =
      c7state.alerts ++ ["Analysis failed."] ∧
    (runAnalysis (Except.error ()) c7state).analyzing = false ∧
    (runAnalysis (Except.error ()) c7state).feedbackGiven = none :=
  ⟨by decide,
    (c7_error_preserves_result c7state () (by decide)).1,
    (c7_error_preserves_result c7state () (by decide)).2.1,
    (c7_error_preserves_result c7state () (by decide)).2.2.1,
    (c7_error_preserves_result c7state () (by decide)).2.2.2.1⟩

/-- C8: every feedback submission appends exactly one
`{timestamp, severity, helpful}` record to the end of the stored
feedback log — the previous records are preserved unchanged — and
records which button was pressed. -/
theorem c8_feedback_append (s : VAState) (ts : String) (b : Bool) :
    (handleFeedback ts b s).feedbackHistory =
      s.feedbackHistory ++
        [{ timestamp := ts
           severity := s.result.map AnalysisResult.severity
           helpful := b }] ∧
    (handleFeedback ts b s).feedbackHistory.length = s.feedbackHistory.length + 1 ∧
    (handleFeedback ts b s).feedbackGiven =
      some (if b then Feedback.up else Feedback.down) :=
  ⟨rfl, by simp [handleFeedback], rfl⟩

/-- C9: invoking `runAnalysis` with neither a waveform nor a spectrum
image only alerts the user; the remote call is never made and the
result, analyzing flag and all other state are unchanged. -/
theorem c9_no_images_alert (s : VAState) (outcome : Except Unit AnalysisResult)
    (hw : s.waveformImage = none) (hs : s.spectrumImage = none) :
    runAnalysis outcome s =
      { s with alerts :=
          s.alerts ++ ["Please upload at least one image (Waveform or Spectrum)."] } ∧
    (runAnalysis outcome s).remoteCalls = s.remoteCalls ∧
    (runAnalysis outcome s).result = s.result ∧
    (runAnalysis outcome s).analyzing = s.analyzing := by
  have h : runAnalysis outcome s =
      { s with alerts :=
          s.alerts ++ ["Please upload at least one image (Waveform or Spectrum)."] } := by
    simp [runAnalysis, hw, hs]
  exact ⟨h, by rw [h], by rw [h], by rw [h]⟩

/-- C9 witness: the theorem at the pristine analyzer state with a
failing outcome. -/
theorem c9_no_images_alert_witness :
    initialVA.waveformImage = none ∧
    initialVA.spectrumImage = none ∧
    runAnalysis (Except.error ()) initialVA =
      { initialVA with alerts :=
          ["Please upload at least one image (Waveform or Spectrum)."] } ∧
    (runAnalysis (Except.error ()) initialVA).remoteCalls = 0 :=
  ⟨rfl, rfl,
    by
      have h := (c9_no_images_alert initialVA (Except.error ()) rfl rfl).1
      simpa [initialVA] using h,
    (c9_no_images_alert initialVA (Except.error ()) rfl rfl).2.1⟩

/-- C10: after an upload the auto-switch effect selects the view by the
fixed priority rule (compare when spectrum and historical are both
present, else spectrum when present, else waveform when present, else
unchanged), the compare tab's disabled attribute is exactly "not both
present", and a click can land on the compare view only when both
images are present or the view was already compare. -/
theorem c10_view_priority (s : VAState) :
    (autoSwitchView s).activeView =
      viewPriorityRuleSpec s.waveformImage.isSome s.spectrumImage.isSome
        s.historicalImage.isSome s.activeView ∧
    compareDisabled s = !(s.historicalImage.isSome && s.spectrumImage.isSome) ∧
    ((selectCompare s).activeView = View.compare ↔
      (s.historicalImage.isSome = true ∧ s.spectrumImage.isSome = true) ∨
        s.activeView = View.compare) := by
  cases hh : s.historicalImage.isSome <;> cases hsp : s.spectrumImage.isSome <;>
    cases hw : s.waveformImage.isSome <;>
    simp [autoSwitchView, viewPriorityRuleSpec, compareDisabled, selectCompare,
      hh, hsp, hw]

end RizbotVibrasi
